import Mathlib

/-
Verification development for the docker-reaper core (src/lib.rs).

The reaping engine is embedded shallowly:
  - std::time::Duration values are modelled as natural numbers of nanoseconds
    (a Duration holds a u64 of seconds plus sub-second nanoseconds, so the
    maximum representable duration is u64::MAX seconds + 999999999 ns);
  - the Docker engine, the system clock, chrono's clock, and chrono's RFC 3339
    parser are external collaborators, modelled as a DockerEnv record of
    predetermined responses;
  - each async entry point (reap_containers, reap_networks, reap_volumes)
    becomes a pure function from a DockerEnv and a config to a result paired
    with the ordered trace of engine/clock interactions it performed; the
    concurrent join_all fan-out is linearized in input order, which is also
    the order the results list is assembled in by join_all;
  - bollard response types keep exactly the fields the code reads.
-/

namespace DockerReaper

/-- Durations and unix timestamps in nanoseconds. std::time::Duration counts a
u64 of whole seconds plus sub-second nanoseconds. -/
abbrev Duration := Nat

/-- Duration::MAX, i.e. u64::MAX seconds plus 999999999 nanoseconds. -/
def durationMax : Duration := 18446744073709551615 * 1000000000 + 999999999

/-- Duration::checked_sub: none when the subtrahend exceeds the minuend. -/
def checkedSub (a b : Duration) : Option Duration :=
  if b ≤ a then some (a - b) else none

/-- A Docker Engine filter: an immutable name/value pair. -/
structure Filter where
  name : String
  value : String
  deriving DecidableEq, Repr

inductive ResourceType
  | container
  | network
  | volume
  deriving DecidableEq, Repr

/-- bollard::errors::Error, reduced to the distinction the code makes:
a server response error with a status code, or any other client failure. -/
inductive BollardError
  | dockerResponseServerError (status_code : Nat) (message : String)
  | other (message : String)
  deriving DecidableEq, Repr

/-- Error encountered while removing a resource. -/
inductive RemovalError
  | docker (e : BollardError)
  deriving DecidableEq, Repr

inductive RemovalStatus
  | eligible
  | success
  | inProgress
  | error (e : RemovalError)
  deriving DecidableEq, Repr

structure Resource where
  resource_type : ResourceType
  id : String
  name : String
  status : RemovalStatus
  deriving DecidableEq, Repr

/-- Unrecoverable error encountered during a reap iteration. -/
inductive ReapError
  | docker (e : BollardError)
  | invalidSystemTime
  | taskFailure
  | invalidAgeBound
  deriving DecidableEq, Repr

structure ReapContainersConfig where
  dry_run : Bool
  min_age : Option Duration
  max_age : Option Duration
  filters : List Filter
  reap_networks : Bool
  deriving DecidableEq, Repr

structure ReapNetworksConfig where
  dry_run : Bool
  min_age : Option Duration
  max_age : Option Duration
  filters : List Filter
  deriving DecidableEq, Repr

structure ReapVolumesConfig where
  dry_run : Bool
  min_age : Option Duration
  max_age : Option Duration
  filters : List Filter
  deriving DecidableEq, Repr

/-- The part of a container's NetworkSettings the code reads: the keys of the
networks map (attached network names). -/
structure NetworkSettings where
  networks : Option (List String)
  deriving DecidableEq, Repr

/-- bollard ContainerSummary, restricted to the fields the code reads.
created is a signed unix timestamp in seconds. -/
structure ContainerSummary where
  id : Option String
  created : Option Int
  names : Option (List String)
  network_settings : Option NetworkSettings
  deriving DecidableEq, Repr

/-- bollard Network, restricted to the fields the code reads.
created is an RFC 3339 timestamp string. -/
structure Network where
  name : Option String
  created : Option String
  deriving DecidableEq, Repr

/-- bollard Volume, restricted to the fields the code reads. The name is
mandatory in the wire type; created_at is an RFC 3339 timestamp string. -/
structure Volume where
  name : String
  created_at : Option String
  deriving DecidableEq, Repr

structure VolumeListResponse where
  volumes : Option (List Volume)
  warnings : Option (List String)
  deriving DecidableEq, Repr

/-- One engine or clock interaction performed by an entry point, recorded in
order of issuance. -/
inductive EngineCall
  | listContainers
  | listNetworks
  | listVolumes
  | readSystemClock
  | readChronoClock
  | removeContainer (id : String)
  | removeNetwork (id : String)
  | removeVolume (id : String)
  deriving DecidableEq, Repr

def EngineCall.isRemove : EngineCall → Bool
  | .removeContainer _ => true
  | .removeNetwork _ => true
  | .removeVolume _ => true
  | _ => false

def EngineCall.isClockRead : EngineCall → Bool
  | .readSystemClock => true
  | .readChronoClock => true
  | _ => false

/-- The external world: the Docker engine's responses, the two clocks the code
consults (SystemTime::now().duration_since(UNIX_EPOCH), which can fail, and
chrono::Utc::now(), which cannot), and chrono's RFC 3339 parser returning a
timestamp in nanoseconds since the epoch. -/
structure DockerEnv where
  list_containers : Except BollardError (List ContainerSummary)
  list_networks : Except BollardError (List Network)
  list_volumes : Except BollardError VolumeListResponse
  remove_container : String → Except BollardError Unit
  remove_network : String → Except BollardError Unit
  remove_volume : String → Except BollardError Unit
  system_clock : Except Unit Duration
  chrono_now : Int
  parse_rfc3339 : String → Option Int

/-- Resource::remove (lib.rs 154-220): attempts removal through the per-kind
engine endpoint and records the outcome on the status field. Returns the
updated resource together with the engine call it issued. -/
def Resource.remove (docker : DockerEnv) (self : Resource) : Resource × EngineCall :=
  match self.resource_type with
  | .container =>
    (match docker.remove_container self.id with
     | .ok _ => { self with status := .success }
     | .error (.dockerResponseServerError code msg) =>
       if code = 404 then { self with status := .success }
       else if code = 409 then { self with status := .inProgress }
       else { self with status := .error (.docker (.dockerResponseServerError code msg)) }
     | .error e => { self with status := .error (.docker e) },
     .removeContainer self.id)
  | .network =>
    (match docker.remove_network self.id with
     | .ok _ => { self with status := .success }
     | .error (.dockerResponseServerError code msg) =>
       if code = 404 then { self with status := .success }
       else if code = 409 then { self with status := .inProgress }
       else { self with status := .error (.docker (.dockerResponseServerError code msg)) }
     | .error e => { self with status := .error (.docker e) },
     .removeNetwork self.id)
  | .volume =>
    (match docker.remove_volume self.id with
     | .ok _ => { self with status := .success }
     | .error (.dockerResponseServerError code msg) =>
       if code = 404 then { self with status := .success }
       else if code = 409 then { self with status := .inProgress }
       else { self with status := .error (.docker (.dockerResponseServerError code msg)) }
     | .error e => { self with status := .error (.docker e) },
     .removeVolume self.id)

/-- The uniform engine-response classification rule the spec describes:
acceptance and not-found (404) give Success, conflict (409) gives InProgress,
anything else gives Error carrying the underlying failure. -/
def classifyRemoveResult : Except BollardError Unit → RemovalStatus
  | .ok _ => .success
  | .error (.dockerResponseServerError code msg) =>
    if code = 404 then .success
    else if code = 409 then .inProgress
    else .error (.docker (.dockerResponseServerError code msg))
  | .error e => .error (.docker e)

/-- Dispatch to the per-kind removal endpoint of the engine. -/
def removeEndpoint (docker : DockerEnv) : ResourceType → String → Except BollardError Unit
  | .container, id => docker.remove_container id
  | .network, id => docker.remove_network id
  | .volume, id => docker.remove_volume id

/-- The retain closure of reap_containers (lib.rs 265-294): skip on missing or
negative creation timestamp, or creation after the clock reading; otherwise
keep iff the age lies strictly inside the configured window. -/
def containerWithinAgeRange (config : ReapContainersConfig) (now : Duration)
    (container : ContainerSummary) : Bool :=
  match container.created with
  | none => false
  | some creation_secs =>
    if creation_secs < 0 then false
    else
      match checkedSub now (creation_secs.toNat * 1000000000) with
      | none => false
      | some age =>
        decide (config.min_age.getD 0 < age) && decide (age < config.max_age.getD durationMax)

/-- The retain closure of reap_networks (lib.rs 375-404): skip on missing name,
missing or unparseable creation timestamp, or creation after the chrono clock;
otherwise keep iff the age lies strictly inside the configured window. -/
def networkWithinAgeRange (config : ReapNetworksConfig) (parse : String → Option Int)
    (now : Int) (network : Network) : Bool :=
  match network.name with
  | none => false
  | some _ =>
    match network.created with
    | none => false
    | some creation_timestamp =>
      match parse creation_timestamp with
      | none => false
      | some creation_time =>
        if now - creation_time < 0 then false
        else
          let age : Duration := (now - creation_time).toNat
          decide (config.min_age.getD 0 < age) && decide (age < config.max_age.getD durationMax)

/-- The retain closure of reap_volumes (lib.rs 460-488): skip on missing or
unparseable creation timestamp, or creation after the chrono clock; otherwise
keep iff the age lies strictly inside the configured window. -/
def volumeWithinAgeRange (config : ReapVolumesConfig) (parse : String → Option Int)
    (now : Int) (volume : Volume) : Bool :=
  match volume.created_at with
  | none => false
  | some creation_timestamp =>
    match parse creation_timestamp with
    | none => false
    | some creation_time =>
      if now - creation_time < 0 then false
      else
        let age : Duration := (now - creation_time).toNat
        decide (config.min_age.getD 0 < age) && decide (age < config.max_age.getD durationMax)

/-- HashSet::insert over the insertion-ordered model of the eligible network
name set: a name already present is not added again. -/
def listInsert (s : List String) (x : String) : List String :=
  if x ∈ s then s else s ++ [x]

/-- The loop of lib.rs 299-326: walk the eligible containers accumulating the
eligible container Resources in order and, when network cascading is on, the
set of attached network names. Containers with a missing id are skipped. -/
def collectEligible (config : ReapContainersConfig) :
    List ContainerSummary → List String → List Resource → List String × List Resource
  | [], network_names, resources => (network_names, resources)
  | container :: rest, network_names, resources =>
    match container.id with
    | none => collectEligible config rest network_names resources
    | some id =>
      let resources' := resources ++
        [{ resource_type := .container
           id := id
           name := (((container.names.getD []).head?).getD id)
           status := .eligible }]
      let network_names' :=
        if config.reap_networks then
          match container.network_settings with
          | some network_settings =>
            match network_settings.networks with
            | some networks => networks.foldl listInsert network_names
            | none => network_names
          | none => network_names
        else network_names
      collectEligible config rest network_names' resources'

/-- lib.rs 327-334: every collected network name becomes one eligible
Network Resource whose id is the name. -/
def networkNameResource (network_name : String) : Resource :=
  { resource_type := .network
    id := network_name
    name := network_name
    status := .eligible }

/-- lib.rs 297-334: build the eligible resource list from the age-filtered
containers — the container Resources in enumeration order followed by one
Network Resource per collected network name, with id = name. -/
def buildEligibleResources (config : ReapContainersConfig)
    (eligible_containers : List ContainerSummary) : List Resource :=
  (collectEligible config eligible_containers [] []).2 ++
    ((collectEligible config eligible_containers [] []).1).map networkNameResource

/-- lib.rs 262-295: the age-filter stage for containers — applied only when at
least one bound is configured, otherwise the candidate set passes through
unchanged. -/
def ageFilteredContainers (config : ReapContainersConfig) (now : Duration)
    (containers : List ContainerSummary) : List ContainerSummary :=
  if config.max_age.isSome || config.min_age.isSome then
    containers.filter (containerWithinAgeRange config now)
  else containers

/-- lib.rs 335-356: the tail of reap_containers after the age filter. On
dry-run, return the eligible list unchanged; otherwise remove all containers
as one group and then all networks as one group, preserving input order in the
results, and extend the trace with the removal calls in issuance order. -/
def reapContainersRest (docker : DockerEnv) (config : ReapContainersConfig)
    (eligible_containers : List ContainerSummary) (trace : List EngineCall) :
    Except ReapError (List Resource) × List EngineCall :=
  let eligible_resources := buildEligibleResources config eligible_containers
  if config.dry_run then
    (.ok eligible_resources, trace)
  else
    let container_results :=
      (eligible_resources.filter (fun r => r.resource_type = .container)).map
        (Resource.remove docker)
    let network_results :=
      (eligible_resources.filter (fun r => r.resource_type = .network)).map
        (Resource.remove docker)
    (.ok (container_results.map Prod.fst ++ network_results.map Prod.fst),
     trace ++ container_results.map Prod.snd ++ network_results.map Prod.snd)

/-- reap_containers (lib.rs 243-357): validate the age bounds, list the
candidate containers, age-filter them when a bound is configured (reading the
system clock, which may fail), then hand over to reapContainersRest. -/
def reap_containers (docker : DockerEnv) (config : ReapContainersConfig) :
    Except ReapError (List Resource) × List EngineCall :=
  if config.max_age.getD durationMax ≤ config.min_age.getD 0 then
    (.error .invalidAgeBound, [])
  else
    match docker.list_containers with
    | .error e => (.error (.docker e), [.listContainers])
    | .ok containers =>
      if config.max_age.isSome || config.min_age.isSome then
        match docker.system_clock with
        | .error _ =>
          (.error .invalidSystemTime, [.listContainers, .readSystemClock])
        | .ok now =>
          reapContainersRest docker config
            (containers.filter (containerWithinAgeRange config now))
            [.listContainers, .readSystemClock]
      else
        reapContainersRest docker config containers [.listContainers]

/-- lib.rs 406-429: the tail of reap_networks after the age filter. Networks
with a missing name are dropped; the rest become Eligible Resources with
id = name; dry-run returns them unchanged, otherwise all are removed as one
group, preserving input order. -/
def networkEligibleResources (eligible_networks : List Network) : List Resource :=
  eligible_networks.filterMap (fun network =>
    match network.name with
    | none => none
    | some name => some
        { resource_type := .network
          id := name
          name := name
          status := .eligible })

def reapNetworksRest (docker : DockerEnv) (config : ReapNetworksConfig)
    (eligible_networks : List Network) (trace : List EngineCall) :
    Except ReapError (List Resource) × List EngineCall :=
  let eligible_resources := networkEligibleResources eligible_networks
  if config.dry_run then
    (.ok eligible_resources, trace)
  else
    let network_results := eligible_resources.map (Resource.remove docker)
    (.ok (network_results.map Prod.fst), trace ++ network_results.map Prod.snd)

/-- reap_networks (lib.rs 359-430): validate the age bounds, list the candidate
networks, age-filter them when a bound is configured (reading chrono's clock),
then hand over to reapNetworksRest. -/
def reap_networks (docker : DockerEnv) (config : ReapNetworksConfig) :
    Except ReapError (List Resource) × List EngineCall :=
  if config.max_age.getD durationMax ≤ config.min_age.getD 0 then
    (.error .invalidAgeBound, [])
  else
    match docker.list_networks with
    | .error e => (.error (.docker e), [.listNetworks])
    | .ok networks =>
      if config.max_age.isSome || config.min_age.isSome then
        reapNetworksRest docker config
          (networks.filter
            (networkWithinAgeRange config docker.parse_rfc3339 docker.chrono_now))
          [.listNetworks, .readChronoClock]
      else
        reapNetworksRest docker config networks [.listNetworks]

/-- lib.rs 490-507: the tail of reap_volumes after the age filter. Every
volume becomes an Eligible Resource with id = name; dry-run returns them
unchanged, otherwise all are removed as one group, preserving input order. -/
def volumeEligibleResources (eligible_volumes : List Volume) : List Resource :=
  eligible_volumes.map (fun volume =>
    { resource_type := .volume
      id := volume.name
      name := volume.name
      status := .eligible })

def reapVolumesRest (docker : DockerEnv) (config : ReapVolumesConfig)
    (eligible_volumes : List Volume) (trace : List EngineCall) :
    Except ReapError (List Resource) × List EngineCall :=
  let eligible_resources := volumeEligibleResources eligible_volumes
  if config.dry_run then
    (.ok eligible_resources, trace)
  else
    let volume_results := eligible_resources.map (Resource.remove docker)
    (.ok (volume_results.map Prod.fst), trace ++ volume_results.map Prod.snd)

/-- reap_volumes (lib.rs 432-508): validate the age bounds, list the volumes
(an absent volumes field short-circuits to an empty Ok result), age-filter
them when a bound is configured (reading chrono's clock), then hand over to
reapVolumesRest. -/
def reap_volumes (docker : DockerEnv) (config : ReapVolumesConfig) :
    Except ReapError (List Resource) × List EngineCall :=
  if config.max_age.getD durationMax ≤ config.min_age.getD 0 then
    (.error .invalidAgeBound, [])
  else
    match docker.list_volumes with
    | .error e => (.error (.docker e), [.listVolumes])
    | .ok response =>
      match response.volumes with
      | none => (.ok [], [.listVolumes])
      | some volumes =>
        if config.max_age.isSome || config.min_age.isSome then
          reapVolumesRest docker config
            (volumes.filter
              (volumeWithinAgeRange config docker.parse_rfc3339 docker.chrono_now))
            [.listVolumes, .readChronoClock]
        else
          reapVolumesRest docker config volumes [.listVolumes]

lemma reapContainersRest_ok (docker : DockerEnv) (config : ReapContainersConfig)
    (l : List ContainerSummary) (t : List EngineCall) :
    ∃ rs, (reapContainersRest docker config l t).1 = Except.ok rs := by
  simp only [reapContainersRest]
  split <;> exact ⟨_, rfl⟩

lemma reapNetworksRest_ok (docker : DockerEnv) (config : ReapNetworksConfig)
    (l : List Network) (t : List EngineCall) :
    ∃ rs, (reapNetworksRest docker config l t).1 = Except.ok rs := by
  simp only [reapNetworksRest]
  split <;> exact ⟨_, rfl⟩

lemma reapVolumesRest_ok (docker : DockerEnv) (config : ReapVolumesConfig)
    (l : List Volume) (t : List EngineCall) :
    ∃ rs, (reapVolumesRest docker config l t).1 = Except.ok rs := by
  simp only [reapVolumesRest]
  split <;> exact ⟨_, rfl⟩

lemma reap_containers_ne_invalidAgeBound (docker : DockerEnv) (config : ReapContainersConfig)
    (h : ¬ config.max_age.getD durationMax ≤ config.min_age.getD 0) :
    (reap_containers docker config).1 ≠ Except.error ReapError.invalidAgeBound := by
  simp only [reap_containers, if_neg h]
  cases hl : docker.list_containers with
  | error e => simp
  | ok containers =>
    by_cases hb : (config.max_age.isSome || config.min_age.isSome) = true
    · simp only [if_pos hb]
      cases hc : docker.system_clock with
      | error u => simp
      | ok now =>
        obtain ⟨rs, hrs⟩ := reapContainersRest_ok docker config
          (containers.filter (containerWithinAgeRange config now))
          [EngineCall.listContainers, EngineCall.readSystemClock]
        simp [hrs]
    · simp only [if_neg hb]
      obtain ⟨rs, hrs⟩ := reapContainersRest_ok docker config containers
        [EngineCall.listContainers]
      simp [hrs]

lemma reap_networks_ne_invalidAgeBound (docker : DockerEnv) (config : ReapNetworksConfig)
    (h : ¬ config.max_age.getD durationMax ≤ config.min_age.getD 0) :
    (reap_networks docker config).1 ≠ Except.error ReapError.invalidAgeBound := by
  simp only [reap_networks, if_neg h]
  cases hl : docker.list_networks with
  | error e => simp
  | ok networks =>
    by_cases hb : (config.max_age.isSome || config.min_age.isSome) = true
    · simp only [if_pos hb]
      obtain ⟨rs, hrs⟩ := reapNetworksRest_ok docker config
        (networks.filter
          (networkWithinAgeRange config docker.parse_rfc3339 docker.chrono_now))
        [EngineCall.listNetworks, EngineCall.readChronoClock]
      simp [hrs]
    · simp only [if_neg hb]
      obtain ⟨rs, hrs⟩ := reapNetworksRest_ok docker config networks
        [EngineCall.listNetworks]
      simp [hrs]

lemma reap_volumes_ne_invalidAgeBound (docker : DockerEnv) (config : ReapVolumesConfig)
    (h : ¬ config.max_age.getD durationMax ≤ config.min_age.getD 0) :
    (reap_volumes docker config).1 ≠ Except.error ReapError.invalidAgeBound := by
  simp only [reap_volumes, if_neg h]
  cases hl : docker.list_volumes with
  | error e => simp
  | ok response =>
    cases hv : response.volumes with
    | none => simp [hv]
    | some volumes =>
      simp only [hv]
      by_cases hb : (config.max_age.isSome || config.min_age.isSome) = true
      · simp only [if_pos hb]
        obtain ⟨rs, hrs⟩ := reapVolumesRest_ok docker config
          (volumes.filter
            (volumeWithinAgeRange config docker.parse_rfc3339 docker.chrono_now))
          [EngineCall.listVolumes, EngineCall.readChronoClock]
        simp [hrs]
      · simp only [if_neg hb]
        obtain ⟨rs, hrs⟩ := reapVolumesRest_ok docker config volumes
          [EngineCall.listVolumes]
        simp [hrs]

/-- C1: each of the three entry points returns InvalidAgeBound with an empty
engine-call trace exactly when the effective minimum age (absent treated as
zero) is greater than or equal to the effective maximum age (absent treated as
the maximum representable duration). -/
theorem reap_invalid_age_bound (docker : DockerEnv) (ccfg : ReapContainersConfig)
    (ncfg : ReapNetworksConfig) (vcfg : ReapVolumesConfig) :
    (((reap_containers docker ccfg).1 = Except.error ReapError.invalidAgeBound ∧
        (reap_containers docker ccfg).2 = []) ↔
      ccfg.max_age.getD durationMax ≤ ccfg.min_age.getD 0) ∧
    (((reap_networks docker ncfg).1 = Except.error ReapError.invalidAgeBound ∧
        (reap_networks docker ncfg).2 = []) ↔
      ncfg.max_age.getD durationMax ≤ ncfg.min_age.getD 0) ∧
    (((reap_volumes docker vcfg).1 = Except.error ReapError.invalidAgeBound ∧
        (reap_volumes docker vcfg).2 = []) ↔
      vcfg.max_age.getD durationMax ≤ vcfg.min_age.getD 0) := by
  refine ⟨⟨fun ⟨h1, _⟩ => ?_, fun h => ?_⟩, ⟨fun ⟨h1, _⟩ => ?_, fun h => ?_⟩,
    ⟨fun ⟨h1, _⟩ => ?_, fun h => ?_⟩⟩
  · by_contra hb
    exact reap_containers_ne_invalidAgeBound docker ccfg hb h1
  · simp [reap_containers, if_pos h]
  · by_contra hb
    exact reap_networks_ne_invalidAgeBound docker ncfg hb h1
  · simp [reap_networks, if_pos h]
  · by_contra hb
    exact reap_volumes_ne_invalidAgeBound docker vcfg hb h1
  · simp [reap_volumes, if_pos h]

/-- A concrete engine environment used to instantiate theorems with
hypotheses: two containers attached to networks, one network, one volume,
removal endpoints answering Ok, 404 and 409 respectively, both clocks at
100 seconds past the epoch, and a parser that recognises the timestamp
string t0 as the epoch. -/
def sampleEnv : DockerEnv where
  list_containers := Except.ok
    [{ id := some "c1", created := some 0, names := some ["/app"],
       network_settings := some { networks := some ["netA", "netB"] } },
     { id := some "c2", created := some 50, names := none,
       network_settings := some { networks := some ["netA"] } }]
  list_networks := Except.ok [{ name := some "netA", created := some "t0" }]
  list_volumes := Except.ok
    { volumes := some [{ name := "vol1", created_at := some "t0" }], warnings := none }
  remove_container := fun _ => Except.ok ()
  remove_network := fun _ => Except.error (.dockerResponseServerError 404 "no such network")
  remove_volume := fun _ => Except.error (.dockerResponseServerError 409 "volume in use")
  system_clock := Except.ok (100 * 1000000000)
  chrono_now := 100 * 1000000000
  parse_rfc3339 := fun s => if s = "t0" then some 0 else none

/-- C1 witness: with min_age = max_age = 5 ns the containers entry point
fails with InvalidAgeBound. -/
theorem reap_invalid_age_bound_witness :
    (reap_containers sampleEnv
      { dry_run := false, min_age := some 5, max_age := some 5, filters := [],
        reap_networks := true }).1 = Except.error ReapError.invalidAgeBound := by
  have h := reap_invalid_age_bound sampleEnv
    { dry_run := false, min_age := some 5, max_age := some 5, filters := [],
      reap_networks := true }
    { dry_run := false, min_age := none, max_age := none, filters := [] }
    { dry_run := false, min_age := none, max_age := none, filters := [] }
  exact (h.1.mpr (by decide)).1

/-- C2: for a candidate whose age computes, the age-filter retain closures of
all three resource kinds keep the candidate exactly when its age lies strictly
between the effective minimum bound (absent treated as zero) and the effective
maximum bound (absent treated as the maximum representable duration); an age
equal to either bound is excluded. -/
theorem age_filter_strict_bounds (ccfg : ReapContainersConfig)
    (ncfg : ReapNetworksConfig) (vcfg : ReapVolumesConfig)
    (parse : String → Option Int) (now : Duration) (cnow : Int)
    (c : ContainerSummary) (n : Network) (v : Volume)
    (cs nt vt : Int) (nname ts vts : String)
    (_hcb : ccfg.min_age.isSome = true ∨ ccfg.max_age.isSome = true)
    (_hnb : ncfg.min_age.isSome = true ∨ ncfg.max_age.isSome = true)
    (_hvb : vcfg.min_age.isSome = true ∨ vcfg.max_age.isSome = true)
    (hc : c.created = some cs) (hc0 : 0 ≤ cs) (hcle : cs.toNat * 1000000000 ≤ now)
    (hn : n.name = some nname) (hnts : n.created = some ts) (hnp : parse ts = some nt)
    (hnle : nt ≤ cnow)
    (hvts : v.created_at = some vts) (hvp : parse vts = some vt) (hvle : vt ≤ cnow) :
    (containerWithinAgeRange ccfg now c = true ↔
      (ccfg.min_age.getD 0 < now - cs.toNat * 1000000000 ∧
        now - cs.toNat * 1000000000 < ccfg.max_age.getD durationMax)) ∧
    (networkWithinAgeRange ncfg parse cnow n = true ↔
      (ncfg.min_age.getD 0 < (cnow - nt).toNat ∧
        (cnow - nt).toNat < ncfg.max_age.getD durationMax)) ∧
    (volumeWithinAgeRange vcfg parse cnow v = true ↔
      (vcfg.min_age.getD 0 < (cnow - vt).toNat ∧
        (cnow - vt).toNat < vcfg.max_age.getD durationMax)) := by
  refine ⟨?_, ?_, ?_⟩
  · simp only [containerWithinAgeRange, hc, if_neg (not_lt.mpr hc0), checkedSub,
      if_pos hcle, Bool.and_eq_true, decide_eq_true_eq]
  · simp only [networkWithinAgeRange, hn, hnts, hnp,
      if_neg (not_lt.mpr (Int.sub_nonneg.mpr hnle)), Bool.and_eq_true, decide_eq_true_eq]
  · simp only [volumeWithinAgeRange, hvts, hvp,
      if_neg (not_lt.mpr (Int.sub_nonneg.mpr hvle)), Bool.and_eq_true, decide_eq_true_eq]

/-- C2 witness: a container, network and volume created at the epoch, observed
at time 500 ns with bounds min_age 10 ns and max_age 1000 ns, all pass the
age filter. -/
theorem age_filter_strict_bounds_witness :
    containerWithinAgeRange
      { dry_run := false, min_age := some 10, max_age := some 1000, filters := [],
        reap_networks := false } 500
      { id := some "c", created := some 0, names := none, network_settings := none }
        = true ∧
    networkWithinAgeRange
      { dry_run := false, min_age := some 10, max_age := some 1000, filters := [] }
      (fun s => if s = "t0" then some 0 else none) 500
      { name := some "n", created := some "t0" } = true ∧
    volumeWithinAgeRange
      { dry_run := false, min_age := some 10, max_age := some 1000, filters := [] }
      (fun s => if s = "t0" then some 0 else none) 500
      { name := "v", created_at := some "t0" } = true := by
  have h := age_filter_strict_bounds
    { dry_run := false, min_age := some 10, max_age := some 1000, filters := [],
      reap_networks := false }
    { dry_run := false, min_age := some 10, max_age := some 1000, filters := [] }
    { dry_run := false, min_age := some 10, max_age := some 1000, filters := [] }
    (fun s => if s = "t0" then some 0 else none) 500 500
    { id := some "c", created := some 0, names := none, network_settings := none }
    { name := some "n", created := some "t0" }
    { name := "v", created_at := some "t0" }
    0 0 0 "n" "t0" "t0"
    (Or.inl rfl) (Or.inl rfl) (Or.inl rfl)
    rfl (by decide) (by decide)
    rfl rfl (by decide) (by decide)
    rfl (by decide) (by decide)
  exact ⟨h.1.mpr (by decide), h.2.1.mpr (by decide), h.2.2.mpr (by decide)⟩

lemma reap_containers_shape (docker : DockerEnv) (config : ReapContainersConfig) :
    reap_containers docker config = (Except.error ReapError.invalidAgeBound, []) ∨
    (∃ e, reap_containers docker config =
      (Except.error (ReapError.docker e), [EngineCall.listContainers])) ∨
    reap_containers docker config = (Except.error ReapError.invalidSystemTime,
      [EngineCall.listContainers, EngineCall.readSystemClock]) ∨
    (∃ l t, (t = [EngineCall.listContainers] ∨
        t = [EngineCall.listContainers, EngineCall.readSystemClock]) ∧
      reap_containers docker config = reapContainersRest docker config l t) := by
  by_cases h : config.max_age.getD durationMax ≤ config.min_age.getD 0
  · exact Or.inl (by simp [reap_containers, if_pos h])
  · cases hl : docker.list_containers with
    | error e =>
      refine Or.inr (Or.inl ⟨e, ?_⟩)
      simp [reap_containers, if_neg h, hl]
    | ok containers =>
      by_cases hb : (config.max_age.isSome || config.min_age.isSome) = true
      · cases hc : docker.system_clock with
        | error u =>
          refine Or.inr (Or.inr (Or.inl ?_))
          simp [reap_containers, if_neg h, hl, hb, hc]
        | ok now =>
          refine Or.inr (Or.inr (Or.inr
            ⟨containers.filter (containerWithinAgeRange config now),
             [EngineCall.listContainers, EngineCall.readSystemClock], Or.inr rfl, ?_⟩))
          simp [reap_containers, if_neg h, hl, hb, hc]
      · refine Or.inr (Or.inr (Or.inr
          ⟨containers, [EngineCall.listContainers], Or.inl rfl, ?_⟩))
        simp [reap_containers, if_neg h, hl, hb]

lemma reap_networks_shape (docker : DockerEnv) (config : ReapNetworksConfig) :
    reap_networks docker config = (Except.error ReapError.invalidAgeBound, []) ∨
    (∃ e, reap_networks docker config =
      (Except.error (ReapError.docker e), [EngineCall.listNetworks])) ∨
    (∃ l t, (t = [EngineCall.listNetworks] ∨
        t = [EngineCall.listNetworks, EngineCall.readChronoClock]) ∧
      reap_networks docker config = reapNetworksRest docker config l t) := by
  by_cases h : config.max_age.getD durationMax ≤ config.min_age.getD 0
  · exact Or.inl (by simp [reap_networks, if_pos h])
  · cases hl : docker.list_networks with
    | error e =>
      refine Or.inr (Or.inl ⟨e, ?_⟩)
      simp [reap_networks, if_neg h, hl]
    | ok networks =>
      by_cases hb : (config.max_age.isSome || config.min_age.isSome) = true
      · refine Or.inr (Or.inr
          ⟨networks.filter
            (networkWithinAgeRange config docker.parse_rfc3339 docker.chrono_now),
           [EngineCall.listNetworks, EngineCall.readChronoClock], Or.inr rfl, ?_⟩)
        simp [reap_networks, if_neg h, hl, hb]
      · refine Or.inr (Or.inr
          ⟨networks, [EngineCall.listNetworks], Or.inl rfl, ?_⟩)
        simp [reap_networks, if_neg h, hl, hb]

lemma reap_volumes_shape (docker : DockerEnv) (config : ReapVolumesConfig) :
    reap_volumes docker config = (Except.error ReapError.invalidAgeBound, []) ∨
    (∃ e, reap_volumes docker config =
      (Except.error (ReapError.docker e), [EngineCall.listVolumes])) ∨
    reap_volumes docker config = (Except.ok [], [EngineCall.listVolumes]) ∨
    (∃ l t, (t = [EngineCall.listVolumes] ∨
        t = [EngineCall.listVolumes, EngineCall.readChronoClock]) ∧
      reap_volumes docker config = reapVolumesRest docker config l t) := by
  by_cases h : config.max_age.getD durationMax ≤ config.min_age.getD 0
  · exact Or.inl (by simp [reap_volumes, if_pos h])
  · cases hl : docker.list_volumes with
    | error e =>
      refine Or.inr (Or.inl ⟨e, ?_⟩)
      simp [reap_volumes, if_neg h, hl]
    | ok response =>
      cases hv : response.volumes with
      | none =>
        refine Or.inr (Or.inr (Or.inl ?_))
        simp [reap_volumes, if_neg h, hl, hv]
      | some volumes =>
        by_cases hb : (config.max_age.isSome || config.min_age.isSome) = true
        · refine Or.inr (Or.inr (Or.inr
            ⟨volumes.filter
              (volumeWithinAgeRange config docker.parse_rfc3339 docker.chrono_now),
             [EngineCall.listVolumes, EngineCall.readChronoClock], Or.inr rfl, ?_⟩))
          simp [reap_volumes, if_neg h, hl, hv, hb]
        · refine Or.inr (Or.inr (Or.inr
            ⟨volumes, [EngineCall.listVolumes], Or.inl rfl, ?_⟩))
          simp [reap_volumes, if_neg h, hl, hv, hb]

lemma reapContainersRest_dry_run (docker : DockerEnv) (config : ReapContainersConfig)
    (l : List ContainerSummary) (t : List EngineCall) (h : config.dry_run = true) :
    reapContainersRest docker config l t =
      (Except.ok (buildEligibleResources config l), t) := by
  simp [reapContainersRest, h]

lemma reapNetworksRest_dry_run (docker : DockerEnv) (config : ReapNetworksConfig)
    (l : List Network) (t : List EngineCall) (h : config.dry_run = true) :
    reapNetworksRest docker config l t =
      (Except.ok (networkEligibleResources l), t) := by
  simp [reapNetworksRest, h]

lemma reapVolumesRest_dry_run (docker : DockerEnv) (config : ReapVolumesConfig)
    (l : List Volume) (t : List EngineCall) (h : config.dry_run = true) :
    reapVolumesRest docker config l t =
      (Except.ok (volumeEligibleResources l), t) := by
  simp [reapVolumesRest, h]

lemma collectEligible_mem (config : ReapContainersConfig) (cs : List ContainerSummary) :
    ∀ (network_names : List String) (res : List Resource) (r : Resource),
      r ∈ (collectEligible config cs network_names res).2 →
      r ∈ res ∨ (r.resource_type = ResourceType.container ∧
        r.status = RemovalStatus.eligible) := by
  induction cs with
  | nil =>
    intro names res r h
    exact Or.inl h
  | cons c rest ih =>
    intro names res r h
    simp only [collectEligible] at h
    cases hid : c.id with
    | none =>
      rw [hid] at h
      exact ih _ _ _ h
    | some id =>
      rw [hid] at h
      rcases ih _ _ _ h with h' | h'
      · rcases List.mem_append.mp h' with h'' | h''
        · exact Or.inl h''
        · obtain rfl := List.mem_singleton.mp h''
          exact Or.inr ⟨rfl, rfl⟩
      · exact Or.inr h'

lemma mem_buildEligibleResources (config : ReapContainersConfig)
    (cs : List ContainerSummary) (r : Resource)
    (h : r ∈ buildEligibleResources config cs) :
    r.status = RemovalStatus.eligible ∧
      (r.resource_type = ResourceType.container ∨
        r.resource_type = ResourceType.network) := by
  unfold buildEligibleResources at h
  rcases List.mem_append.mp h with h' | h'
  · rcases collectEligible_mem config cs [] [] r h' with h'' | h''
    · exact absurd h'' (List.not_mem_nil r)
    · exact ⟨h''.2, Or.inl h''.1⟩
  · obtain ⟨nm, -, rfl⟩ := List.mem_map.mp h'
    exact ⟨rfl, Or.inr rfl⟩

lemma mem_networkEligibleResources (l : List Network) (r : Resource)
    (h : r ∈ networkEligibleResources l) :
    r.status = RemovalStatus.eligible ∧ r.resource_type = ResourceType.network := by
  unfold networkEligibleResources at h
  obtain ⟨n, -, hn⟩ := List.mem_filterMap.mp h
  cases hname : n.name with
  | none =>
    rw [hname] at hn
    cases hn
  | some name =>
    rw [hname] at hn
    cases hn
    exact ⟨rfl, rfl⟩

lemma mem_volumeEligibleResources (l : List Volume) (r : Resource)
    (h : r ∈ volumeEligibleResources l) :
    r.status = RemovalStatus.eligible ∧ r.resource_type = ResourceType.volume := by
  unfold volumeEligibleResources at h
  obtain ⟨v, -, rfl⟩ := List.mem_map.mp h
  exact ⟨rfl, rfl⟩

/-- C3: with dry_run set, every resource returned by any of the three entry
points still has status Eligible, and no removal engine call is ever issued. -/
theorem dry_run_no_removals (docker : DockerEnv)
    (ccfg : ReapContainersConfig) (ncfg : ReapNetworksConfig) (vcfg : ReapVolumesConfig)
    (hc : ccfg.dry_run = true) (hn : ncfg.dry_run = true) (hv : vcfg.dry_run = true) :
    (∀ rs, (reap_containers docker ccfg).1 = Except.ok rs →
        ∀ r ∈ rs, r.status = RemovalStatus.eligible) ∧
    (∀ call ∈ (reap_containers docker ccfg).2, call.isRemove = false) ∧
    (∀ rs, (reap_networks docker ncfg).1 = Except.ok rs →
        ∀ r ∈ rs, r.status = RemovalStatus.eligible) ∧
    (∀ call ∈ (reap_networks docker ncfg).2, call.isRemove = false) ∧
    (∀ rs, (reap_volumes docker vcfg).1 = Except.ok rs →
        ∀ r ∈ rs, r.status = RemovalStatus.eligible) ∧
    (∀ call ∈ (reap_volumes docker vcfg).2, call.isRemove = false) := by
  have hcontainers : (∀ rs, (reap_containers docker ccfg).1 = Except.ok rs →
      ∀ r ∈ rs, r.status = RemovalStatus.eligible) ∧
      (∀ call ∈ (reap_containers docker ccfg).2, call.isRemove = false) := by
    rcases reap_containers_shape docker ccfg with h | ⟨e, h⟩ | h | ⟨l, t, ht, h⟩
    · rw [h]
      refine ⟨fun rs hok => ?_, ?_⟩
      · cases hok
      show ∀ call ∈ ([] : List EngineCall), call.isRemove = false
      decide
    · rw [h]
      refine ⟨fun rs hok => ?_, ?_⟩
      · cases hok
      show ∀ call ∈ [EngineCall.listContainers], call.isRemove = false
      decide
    · rw [h]
      refine ⟨fun rs hok => ?_, ?_⟩
      · cases hok
      show ∀ call ∈ [EngineCall.listContainers, EngineCall.readSystemClock],
        call.isRemove = false
      decide
    · rw [h, reapContainersRest_dry_run docker ccfg l t hc]
      refine ⟨fun rs hok r hr => ?_, ?_⟩
      · cases hok
        exact (mem_buildEligibleResources ccfg l r hr).1
      · show ∀ call ∈ t, call.isRemove = false
        rcases ht with rfl | rfl <;> decide
  have hnetworks : (∀ rs, (reap_networks docker ncfg).1 = Except.ok rs →
      ∀ r ∈ rs, r.status = RemovalStatus.eligible) ∧
      (∀ call ∈ (reap_networks docker ncfg).2, call.isRemove = false) := by
    rcases reap_networks_shape docker ncfg with h | ⟨e, h⟩ | ⟨l, t, ht, h⟩
    · rw [h]
      refine ⟨fun rs hok => ?_, ?_⟩
      · cases hok
      show ∀ call ∈ ([] : List EngineCall), call.isRemove = false
      decide
    · rw [h]
      refine ⟨fun rs hok => ?_, ?_⟩
      · cases hok
      show ∀ call ∈ [EngineCall.listNetworks], call.isRemove = false
      decide
    · rw [h, reapNetworksRest_dry_run docker ncfg l t hn]
      refine ⟨fun rs hok r hr => ?_, ?_⟩
      · cases hok
        exact (mem_networkEligibleResources l r hr).1
      · show ∀ call ∈ t, call.isRemove = false
        rcases ht with rfl | rfl <;> decide
  have hvolumes : (∀ rs, (reap_volumes docker vcfg).1 = Except.ok rs →
      ∀ r ∈ rs, r.status = RemovalStatus.eligible) ∧
      (∀ call ∈ (reap_volumes docker vcfg).2, call.isRemove = false) := by
    rcases reap_volumes_shape docker vcfg with h | ⟨e, h⟩ | h | ⟨l, t, ht, h⟩
    · rw [h]
      refine ⟨fun rs hok => ?_, ?_⟩
      · cases hok
      show ∀ call ∈ ([] : List EngineCall), call.isRemove = false
      decide
    · rw [h]
      refine ⟨fun rs hok => ?_, ?_⟩
      · cases hok
      show ∀ call ∈ [EngineCall.listVolumes], call.isRemove = false
      decide
    · rw [h]
      refine ⟨fun rs hok r hr => ?_, ?_⟩
      · cases hok
        exact absurd hr (List.not_mem_nil r)
      · show ∀ call ∈ [EngineCall.listVolumes], call.isRemove = false
        decide
    · rw [h, reapVolumesRest_dry_run docker vcfg l t hv]
      refine ⟨fun rs hok r hr => ?_, ?_⟩
      · cases hok
        exact (mem_volumeEligibleResources l r hr).1
      · show ∀ call ∈ t, call.isRemove = false
        rcases ht with rfl | rfl <;> decide
  exact ⟨hcontainers.1, hcontainers.2, hnetworks.1, hnetworks.2, hvolumes.1, hvolumes.2⟩

/-- C3 witness: a dry-run cascade reap over the sample environment leaves the
first returned container resource in status Eligible. -/
theorem dry_run_no_removals_witness :
    ({ resource_type := ResourceType.container, id := "c1", name := "/app",
       status := RemovalStatus.eligible } : Resource).status = RemovalStatus.eligible := by
  have h := dry_run_no_removals sampleEnv
    { dry_run := true, min_age := none, max_age := none, filters := [],
      reap_networks := true }
    { dry_run := true, min_age := none, max_age := none, filters := [] }
    { dry_run := true, min_age := none, max_age := none, filters := [] }
    rfl rfl rfl
  exact h.1
    [{ resource_type := ResourceType.container, id := "c1", name := "/app",
       status := RemovalStatus.eligible },
     { resource_type := ResourceType.container, id := "c2", name := "c2",
       status := RemovalStatus.eligible },
     { resource_type := ResourceType.network, id := "netA", name := "netA",
       status := RemovalStatus.eligible },
     { resource_type := ResourceType.network, id := "netB", name := "netB",
       status := RemovalStatus.eligible }]
    rfl _ (List.mem_cons_self _ _)

lemma remove_fst_status (docker : DockerEnv) (r : Resource) :
    (Resource.remove docker r).1.status =
      classifyRemoveResult (removeEndpoint docker r.resource_type r.id) := by
  cases hrt : r.resource_type
  case container =>
    simp only [Resource.remove, removeEndpoint, hrt]
    cases hc : docker.remove_container r.id with
    | ok u => rfl
    | error e =>
      cases e with
      | dockerResponseServerError code msg =>
        by_cases h4 : code = 404
        · simp [h4, classifyRemoveResult]
        · by_cases h9 : code = 409
          · simp [h4, h9, classifyRemoveResult]
          · simp [h4, h9, classifyRemoveResult]
      | other msg => rfl
  case network =>
    simp only [Resource.remove, removeEndpoint, hrt]
    cases hc : docker.remove_network r.id with
    | ok u => rfl
    | error e =>
      cases e with
      | dockerResponseServerError code msg =>
        by_cases h4 : code = 404
        · simp [h4, classifyRemoveResult]
        · by_cases h9 : code = 409
          · simp [h4, h9, classifyRemoveResult]
          · simp [h4, h9, classifyRemoveResult]
      | other msg => rfl
  case volume =>
    simp only [Resource.remove, removeEndpoint, hrt]
    cases hc : docker.remove_volume r.id with
    | ok u => rfl
    | error e =>
      cases e with
      | dockerResponseServerError code msg =>
        by_cases h4 : code = 404
        · simp [h4, classifyRemoveResult]
        · by_cases h9 : code = 409
          · simp [h4, h9, classifyRemoveResult]
          · simp [h4, h9, classifyRemoveResult]
      | other msg => rfl

lemma remove_fst_fields (docker : DockerEnv) (r : Resource) :
    (Resource.remove docker r).1.resource_type = r.resource_type ∧
    (Resource.remove docker r).1.id = r.id ∧
    (Resource.remove docker r).1.name = r.name := by
  cases hrt : r.resource_type <;>
    simp only [Resource.remove, hrt] <;>
    (repeat' split) <;> exact ⟨rfl, rfl, rfl⟩

lemma classifyRemoveResult_shape (res : Except BollardError Unit) :
    classifyRemoveResult res = RemovalStatus.success ∨
    classifyRemoveResult res = RemovalStatus.inProgress ∨
    ∃ e, classifyRemoveResult res = RemovalStatus.error e := by
  cases res with
  | ok u => exact Or.inl rfl
  | error e =>
    cases e with
    | dockerResponseServerError code msg =>
      by_cases h4 : code = 404
      · exact Or.inl (by simp [classifyRemoveResult, h4])
      · by_cases h9 : code = 409
        · exact Or.inr (Or.inl (by simp [classifyRemoveResult, h4, h9]))
        · exact Or.inr (Or.inr
            ⟨RemovalError.docker (BollardError.dockerResponseServerError code msg),
             by simp [classifyRemoveResult, h4, h9]⟩)
    | other msg => exact Or.inr (Or.inr ⟨_, rfl⟩)

/-- C4: for every resource of every kind, an attempted removal sets the status
by the one uniform rule (acceptance or 404 give Success, 409 gives InProgress,
anything else gives Error carrying the underlying failure), touching no other
field, and the batch remover returns one result per input resource, so a
per-resource failure never shortens or aborts the batch. -/
theorem remove_status_classification (docker : DockerEnv) (r : Resource) :
    ((Resource.remove docker r).1.status =
      classifyRemoveResult (removeEndpoint docker r.resource_type r.id)) ∧
    ((Resource.remove docker r).1.resource_type = r.resource_type ∧
      (Resource.remove docker r).1.id = r.id ∧
      (Resource.remove docker r).1.name = r.name) ∧
    (∀ rs : List Resource,
      (rs.map (fun x => (Resource.remove docker x).1)).length = rs.length) :=
  ⟨remove_fst_status docker r, remove_fst_fields docker r,
    fun rs => List.length_map rs _⟩

lemma collect_resources_container (config : ReapContainersConfig)
    (l : List ContainerSummary) :
    ∀ r ∈ (collectEligible config l [] []).2,
      r.resource_type = ResourceType.container := by
  intro r hr
  rcases collectEligible_mem config l [] [] r hr with h | h
  · exact absurd h (List.not_mem_nil r)
  · exact h.1

lemma filter_buildEligible_container (config : ReapContainersConfig)
    (l : List ContainerSummary) :
    (buildEligibleResources config l).filter
        (fun r => r.resource_type = ResourceType.container) =
      (collectEligible config l [] []).2 := by
  unfold buildEligibleResources
  rw [List.filter_append]
  have h1 : (collectEligible config l [] []).2.filter
      (fun r => r.resource_type = ResourceType.container) =
      (collectEligible config l [] []).2 :=
    List.filter_eq_self.mpr (fun a ha => by
      simp [collect_resources_container config l a ha])
  have h2 : (((collectEligible config l [] []).1).map networkNameResource).filter
      (fun r => r.resource_type = ResourceType.container) = [] :=
    List.filter_eq_nil_iff.mpr (fun a ha => by
      obtain ⟨nm, -, rfl⟩ := List.mem_map.mp ha
      simp [networkNameResource])
  rw [h1, h2, List.append_nil]

lemma filter_buildEligible_network (config : ReapContainersConfig)
    (l : List ContainerSummary) :
    (buildEligibleResources config l).filter
        (fun r => r.resource_type = ResourceType.network) =
      ((collectEligible config l [] []).1).map networkNameResource := by
  unfold buildEligibleResources
  rw [List.filter_append]
  have h1 : (collectEligible config l [] []).2.filter
      (fun r => r.resource_type = ResourceType.network) = [] :=
    List.filter_eq_nil_iff.mpr (fun a ha => by
      simp [collect_resources_container config l a ha])
  have h2 : (((collectEligible config l [] []).1).map networkNameResource).filter
      (fun r => r.resource_type = ResourceType.network) =
      ((collectEligible config l [] []).1).map networkNameResource :=
    List.filter_eq_self.mpr (fun a ha => by
      obtain ⟨nm, -, rfl⟩ := List.mem_map.mp ha
      simp [networkNameResource])
  rw [h1, h2, List.nil_append]

lemma remove_snd_container (docker : DockerEnv) (r : Resource)
    (h : r.resource_type = ResourceType.container) :
    (Resource.remove docker r).2 = EngineCall.removeContainer r.id := by
  simp [Resource.remove, h]

lemma remove_snd_network (docker : DockerEnv) (r : Resource)
    (h : r.resource_type = ResourceType.network) :
    (Resource.remove docker r).2 = EngineCall.removeNetwork r.id := by
  simp [Resource.remove, h]

lemma reapContainersRest_no_dry (docker : DockerEnv) (config : ReapContainersConfig)
    (l : List ContainerSummary) (t : List EngineCall) (h : config.dry_run = false) :
    reapContainersRest docker config l t =
      (Except.ok ((buildEligibleResources config l).map
          (fun r => (Resource.remove docker r).1)),
       t ++ ((collectEligible config l [] []).2).map
          (fun r => (Resource.remove docker r).2)
         ++ (((collectEligible config l [] []).1).map networkNameResource).map
          (fun r => (Resource.remove docker r).2)) := by
  simp only [reapContainersRest, h, Bool.false_eq_true, if_false]
  rw [filter_buildEligible_container, filter_buildEligible_network]
  simp only [Prod.mk.injEq]
  constructor
  · simp [buildEligibleResources, List.map_map, Function.comp_def]
  · simp [List.map_map, Function.comp_def]

lemma reap_containers_run (docker : DockerEnv) (config : ReapContainersConfig)
    (containers : List ContainerSummary) (now : Duration)
    (hbound : ¬ config.max_age.getD durationMax ≤ config.min_age.getD 0)
    (hlist : docker.list_containers = Except.ok containers)
    (hclock : docker.system_clock = Except.ok now) :
    ∃ t, (∀ call ∈ t, call.isRemove = false) ∧
      reap_containers docker config =
        reapContainersRest docker config
          (ageFilteredContainers config now containers) t := by
  by_cases hb : (config.max_age.isSome || config.min_age.isSome) = true
  · refine ⟨[EngineCall.listContainers, EngineCall.readSystemClock], by decide, ?_⟩
    simp [reap_containers, if_neg hbound, hlist, hb, hclock, ageFilteredContainers]
  · refine ⟨[EngineCall.listContainers], by decide, ?_⟩
    simp [reap_containers, if_neg hbound, hlist, hb, ageFilteredContainers]

/-- C5: in a non-dry-run reap_containers call whose eligible batch holds both
containers and cascaded networks, the returned list is the eligible list in
its original order (containers in enumeration order, then cascaded networks)
with each resource annotated by its removal outcome, and the engine-call trace
issues every container removal before any network removal. -/
theorem containers_before_networks_order (docker : DockerEnv)
    (config : ReapContainersConfig) (containers : List ContainerSummary)
    (now : Duration)
    (hdry : config.dry_run = false)
    (hbound : ¬ config.max_age.getD durationMax ≤ config.min_age.getD 0)
    (hlist : docker.list_containers = Except.ok containers)
    (hclock : docker.system_clock = Except.ok now)
    (_hhasc : ∃ r ∈ buildEligibleResources config
      (ageFilteredContainers config now containers),
      r.resource_type = ResourceType.container)
    (_hhasn : ∃ r ∈ buildEligibleResources config
      (ageFilteredContainers config now containers),
      r.resource_type = ResourceType.network) :
    (reap_containers docker config).1 = Except.ok
      ((buildEligibleResources config (ageFilteredContainers config now containers)).map
        (fun r => (Resource.remove docker r).1)) ∧
    (∃ t0, (∀ call ∈ t0, call.isRemove = false) ∧
      (reap_containers docker config).2 = t0 ++
        ((buildEligibleResources config
            (ageFilteredContainers config now containers)).filter
          (fun r => r.resource_type = ResourceType.container)).map
            (fun r => EngineCall.removeContainer r.id) ++
        ((buildEligibleResources config
            (ageFilteredContainers config now containers)).filter
          (fun r => r.resource_type = ResourceType.network)).map
            (fun r => EngineCall.removeNetwork r.id)) := by
  obtain ⟨t, ht, hrun⟩ := reap_containers_run docker config containers now hbound hlist hclock
  constructor
  · rw [hrun, reapContainersRest_no_dry docker config
      (ageFilteredContainers config now containers) t hdry]
  · refine ⟨t, ht, ?_⟩
    rw [hrun, reapContainersRest_no_dry docker config
      (ageFilteredContainers config now containers) t hdry]
    rw [filter_buildEligible_container, filter_buildEligible_network]
    have hCmap : ((collectEligible config
          (ageFilteredContainers config now containers) [] []).2).map
        (fun r => (Resource.remove docker r).2) =
        ((collectEligible config
          (ageFilteredContainers config now containers) [] []).2).map
        (fun r => EngineCall.removeContainer r.id) :=
      List.map_congr_left (fun a ha => remove_snd_container docker a
        (collect_resources_container config
          (ageFilteredContainers config now containers) a ha))
    have hNmap : (((collectEligible config
          (ageFilteredContainers config now containers) [] []).1).map
          networkNameResource).map
        (fun r => (Resource.remove docker r).2) =
        (((collectEligible config
          (ageFilteredContainers config now containers) [] []).1).map
          networkNameResource).map
        (fun r => EngineCall.removeNetwork r.id) :=
      List.map_congr_left (fun a ha => by
        obtain ⟨nm, -, rfl⟩ := List.mem_map.mp ha
        exact remove_snd_network docker _ rfl)
    rw [hCmap, hNmap]

/-- C5 witness: removing two sample containers with network cascading returns
the annotated eligible list in its original order. -/
theorem containers_before_networks_order_witness :
    (reap_containers sampleEnv
      { dry_run := false, min_age := none, max_age := none, filters := [],
        reap_networks := true }).1 = Except.ok
      ((buildEligibleResources
        { dry_run := false, min_age := none, max_age := none, filters := [],
          reap_networks := true }
        (ageFilteredContainers
          { dry_run := false, min_age := none, max_age := none, filters := [],
            reap_networks := true } (100 * 1000000000)
          [{ id := some "c1", created := some 0, names := some ["/app"],
             network_settings := some { networks := some ["netA", "netB"] } },
           { id := some "c2", created := some 50, names := none,
             network_settings := some { networks := some ["netA"] } }])).map
        (fun r => (Resource.remove sampleEnv r).1)) :=
  (containers_before_networks_order sampleEnv
    { dry_run := false, min_age := none, max_age := none, filters := [],
      reap_networks := true }
    [{ id := some "c1", created := some 0, names := some ["/app"],
       network_settings := some { networks := some ["netA", "netB"] } },
     { id := some "c2", created := some 50, names := none,
       network_settings := some { networks := some ["netA"] } }]
    (100 * 1000000000) rfl (by decide) rfl rfl (by decide) (by decide)).1

lemma remove_snd_isRemove (docker : DockerEnv) (r : Resource) :
    ((Resource.remove docker r).2).isRemove = true := by
  cases hrt : r.resource_type <;> simp [Resource.remove, hrt, EngineCall.isRemove]

lemma isClockRead_false_of_isRemove (call : EngineCall) (h : call.isRemove = true) :
    call.isClockRead = false := by
  cases call <;> first | rfl | exact absurd h (by decide)

lemma reapNetworksRest_no_dry (docker : DockerEnv) (config : ReapNetworksConfig)
    (l : List Network) (t : List EngineCall) (h : config.dry_run = false) :
    reapNetworksRest docker config l t =
      (Except.ok ((networkEligibleResources l).map
          (fun r => (Resource.remove docker r).1)),
       t ++ (networkEligibleResources l).map
          (fun r => (Resource.remove docker r).2)) := by
  simp [reapNetworksRest, h, List.map_map, Function.comp_def]

lemma reapVolumesRest_no_dry (docker : DockerEnv) (config : ReapVolumesConfig)
    (l : List Volume) (t : List EngineCall) (h : config.dry_run = false) :
    reapVolumesRest docker config l t =
      (Except.ok ((volumeEligibleResources l).map
          (fun r => (Resource.remove docker r).1)),
       t ++ (volumeEligibleResources l).map
          (fun r => (Resource.remove docker r).2)) := by
  simp [reapVolumesRest, h, List.map_map, Function.comp_def]

lemma reapContainersRest_trace_mem (docker : DockerEnv) (config : ReapContainersConfig)
    (l : List ContainerSummary) (t : List EngineCall) :
    ∀ call ∈ (reapContainersRest docker config l t).2,
      call ∈ t ∨ call.isRemove = true := by
  intro call hcall
  by_cases hd : config.dry_run = true
  · rw [reapContainersRest_dry_run docker config l t hd] at hcall
    exact Or.inl hcall
  · have hd' : config.dry_run = false := by
      cases h : config.dry_run
      · rfl
      · exact absurd h hd
    rw [reapContainersRest_no_dry docker config l t hd'] at hcall
    rcases List.mem_append.mp hcall with h1 | h2
    · rcases List.mem_append.mp h1 with h0 | hA
      · exact Or.inl h0
      · obtain ⟨r, -, rfl⟩ := List.mem_map.mp hA
        exact Or.inr (remove_snd_isRemove docker r)
    · obtain ⟨r, -, rfl⟩ := List.mem_map.mp h2
      exact Or.inr (remove_snd_isRemove docker r)

lemma reapNetworksRest_trace_mem (docker : DockerEnv) (config : ReapNetworksConfig)
    (l : List Network) (t : List EngineCall) :
    ∀ call ∈ (reapNetworksRest docker config l t).2,
      call ∈ t ∨ call.isRemove = true := by
  intro call hcall
  by_cases hd : config.dry_run = true
  · rw [reapNetworksRest_dry_run docker config l t hd] at hcall
    exact Or.inl hcall
  · have hd' : config.dry_run = false := by
      cases h : config.dry_run
      · rfl
      · exact absurd h hd
    rw [reapNetworksRest_no_dry docker config l t hd'] at hcall
    rcases List.mem_append.mp hcall with h1 | h2
    · exact Or.inl h1
    · obtain ⟨r, -, rfl⟩ := List.mem_map.mp h2
      exact Or.inr (remove_snd_isRemove docker r)

lemma reapVolumesRest_trace_mem (docker : DockerEnv) (config : ReapVolumesConfig)
    (l : List Volume) (t : List EngineCall) :
    ∀ call ∈ (reapVolumesRest docker config l t).2,
      call ∈ t ∨ call.isRemove = true := by
  intro call hcall
  by_cases hd : config.dry_run = true
  · rw [reapVolumesRest_dry_run docker config l t hd] at hcall
    exact Or.inl hcall
  · have hd' : config.dry_run = false := by
      cases h : config.dry_run
      · rfl
      · exact absurd h hd
    rw [reapVolumesRest_no_dry docker config l t hd'] at hcall
    rcases List.mem_append.mp hcall with h1 | h2
    · exact Or.inl h1
    · obtain ⟨r, -, rfl⟩ := List.mem_map.mp h2
      exact Or.inr (remove_snd_isRemove docker r)

/-- C6: when both age bounds are absent the age filter is skipped entirely —
the enumerated candidate set (including candidates with missing, negative or
unparseable creation timestamps) passes to the resource-building stage
unchanged, and no clock is ever read, for all three entry points. -/
theorem absent_bounds_skip_filter (docker : DockerEnv)
    (ccfg : ReapContainersConfig) (ncfg : ReapNetworksConfig)
    (vcfg : ReapVolumesConfig)
    (hc1 : ccfg.min_age = none) (hc2 : ccfg.max_age = none)
    (hn1 : ncfg.min_age = none) (hn2 : ncfg.max_age = none)
    (hv1 : vcfg.min_age = none) (hv2 : vcfg.max_age = none) :
    (∀ cs, docker.list_containers = Except.ok cs →
      reap_containers docker ccfg =
        reapContainersRest docker ccfg cs [EngineCall.listContainers]) ∧
    (∀ call ∈ (reap_containers docker ccfg).2, call.isClockRead = false) ∧
    (∀ ns, docker.list_networks = Except.ok ns →
      reap_networks docker ncfg =
        reapNetworksRest docker ncfg ns [EngineCall.listNetworks]) ∧
    (∀ call ∈ (reap_networks docker ncfg).2, call.isClockRead = false) ∧
    (∀ resp vs, docker.list_volumes = Except.ok resp → resp.volumes = some vs →
      reap_volumes docker vcfg =
        reapVolumesRest docker vcfg vs [EngineCall.listVolumes]) ∧
    (∀ call ∈ (reap_volumes docker vcfg).2, call.isClockRead = false) := by
  have hcb : ¬ ccfg.max_age.getD durationMax ≤ ccfg.min_age.getD 0 := by
    rw [hc1, hc2]; decide
  have hnb : ¬ ncfg.max_age.getD durationMax ≤ ncfg.min_age.getD 0 := by
    rw [hn1, hn2]; decide
  have hvb : ¬ vcfg.max_age.getD durationMax ≤ vcfg.min_age.getD 0 := by
    rw [hv1, hv2]; decide
  have hcpass : ∀ cs, docker.list_containers = Except.ok cs →
      reap_containers docker ccfg =
        reapContainersRest docker ccfg cs [EngineCall.listContainers] := by
    intro cs hl
    unfold reap_containers
    rw [if_neg hcb]
    simp [hl, hc1, hc2]
  have hnpass : ∀ ns, docker.list_networks = Except.ok ns →
      reap_networks docker ncfg =
        reapNetworksRest docker ncfg ns [EngineCall.listNetworks] := by
    intro ns hl
    unfold reap_networks
    rw [if_neg hnb]
    simp [hl, hn1, hn2]
  have hvpass : ∀ resp vs, docker.list_volumes = Except.ok resp →
      resp.volumes = some vs →
      reap_volumes docker vcfg =
        reapVolumesRest docker vcfg vs [EngineCall.listVolumes] := by
    intro resp vs hl hvsome
    unfold reap_volumes
    rw [if_neg hvb]
    simp [hl, hvsome, hv1, hv2]
  refine ⟨hcpass, ?_, hnpass, ?_, hvpass, ?_⟩
  · intro call hcall
    cases hl : docker.list_containers with
    | error e =>
      have heq : reap_containers docker ccfg =
          (Except.error (ReapError.docker e), [EngineCall.listContainers]) := by
        simp [reap_containers, if_neg hcb, hl]
      rw [heq] at hcall
      obtain rfl := List.mem_singleton.mp hcall
      rfl
    | ok cs =>
      rw [hcpass cs hl] at hcall
      rcases reapContainersRest_trace_mem docker ccfg cs
          [EngineCall.listContainers] call hcall with h | h
      · obtain rfl := List.mem_singleton.mp h
        rfl
      · exact isClockRead_false_of_isRemove call h
  · intro call hcall
    cases hl : docker.list_networks with
    | error e =>
      have heq : reap_networks docker ncfg =
          (Except.error (ReapError.docker e), [EngineCall.listNetworks]) := by
        simp [reap_networks, if_neg hnb, hl]
      rw [heq] at hcall
      obtain rfl := List.mem_singleton.mp hcall
      rfl
    | ok ns =>
      rw [hnpass ns hl] at hcall
      rcases reapNetworksRest_trace_mem docker ncfg ns
          [EngineCall.listNetworks] call hcall with h | h
      · obtain rfl := List.mem_singleton.mp h
        rfl
      · exact isClockRead_false_of_isRemove call h
  · intro call hcall
    cases hl : docker.list_volumes with
    | error e =>
      have heq : reap_volumes docker vcfg =
          (Except.error (ReapError.docker e), [EngineCall.listVolumes]) := by
        simp [reap_volumes, if_neg hvb, hl]
      rw [heq] at hcall
      obtain rfl := List.mem_singleton.mp hcall
      rfl
    | ok resp =>
      cases hvsome : resp.volumes with
      | none =>
        have heq : reap_volumes docker vcfg =
            (Except.ok [], [EngineCall.listVolumes]) := by
          simp [reap_volumes, if_neg hvb, hl, hvsome]
        rw [heq] at hcall
        obtain rfl := List.mem_singleton.mp hcall
        rfl
      | some vs =>
        rw [hvpass resp vs hl hvsome] at hcall
        rcases reapVolumesRest_trace_mem docker vcfg vs
            [EngineCall.listVolumes] call hcall with h | h
        · obtain rfl := List.mem_singleton.mp h
          rfl
        · exact isClockRead_false_of_isRemove call h

/-- C6 witness: with both bounds absent, a candidate container with a missing
creation timestamp still reaches the resource-building stage. -/
theorem absent_bounds_skip_filter_witness :
    reap_containers
      { sampleEnv with list_containers := (Except.ok
          [{ id := some "bad", created := none, names := none,
             network_settings := none }]) }
      { dry_run := true, min_age := none, max_age := none, filters := [],
        reap_networks := false } =
      reapContainersRest
        { sampleEnv with list_containers := (Except.ok
            [{ id := some "bad", created := none, names := none,
               network_settings := none }]) }
        { dry_run := true, min_age := none, max_age := none, filters := [],
          reap_networks := false }
        [{ id := some "bad", created := none, names := none,
           network_settings := none }]
        [EngineCall.listContainers] :=
  (absent_bounds_skip_filter
    { sampleEnv with list_containers := (Except.ok
        [{ id := some "bad", created := none, names := none,
           network_settings := none }]) }
    { dry_run := true, min_age := none, max_age := none, filters := [],
      reap_networks := false }
    { dry_run := true, min_age := none, max_age := none, filters := [] }
    { dry_run := true, min_age := none, max_age := none, filters := [] }
    rfl rfl rfl rfl rfl rfl).1
    [{ id := some "bad", created := none, names := none,
       network_settings := none }] rfl

lemma reap_containers_ok (docker : DockerEnv) (config : ReapContainersConfig)
    (hbound : ¬ config.max_age.getD durationMax ≤ config.min_age.getD 0)
    (hl : ∃ cs, docker.list_containers = Except.ok cs)
    (hck : ∃ now, docker.system_clock = Except.ok now) :
    ∃ rs, (reap_containers docker config).1 = Except.ok rs := by
  obtain ⟨cs, hl⟩ := hl
  obtain ⟨now, hck⟩ := hck
  obtain ⟨t, -, hrun⟩ := reap_containers_run docker config cs now hbound hl hck
  rw [hrun]
  exact reapContainersRest_ok docker config _ t

lemma reap_networks_ok (docker : DockerEnv) (config : ReapNetworksConfig)
    (hbound : ¬ config.max_age.getD durationMax ≤ config.min_age.getD 0)
    (hl : ∃ ns, docker.list_networks = Except.ok ns) :
    ∃ rs, (reap_networks docker config).1 = Except.ok rs := by
  obtain ⟨ns, hl⟩ := hl
  by_cases hb : (config.max_age.isSome || config.min_age.isSome) = true
  · have heq : reap_networks docker config =
        reapNetworksRest docker config
          (ns.filter (networkWithinAgeRange config docker.parse_rfc3339
            docker.chrono_now))
          [EngineCall.listNetworks, EngineCall.readChronoClock] := by
      unfold reap_networks
      rw [if_neg hbound]
      simp [hl, hb]
    rw [heq]
    exact reapNetworksRest_ok docker config _ _
  · have heq : reap_networks docker config =
        reapNetworksRest docker config ns [EngineCall.listNetworks] := by
      unfold reap_networks
      rw [if_neg hbound]
      simp [hl, hb]
    rw [heq]
    exact reapNetworksRest_ok docker config _ _

lemma reap_volumes_ok (docker : DockerEnv) (config : ReapVolumesConfig)
    (hbound : ¬ config.max_age.getD durationMax ≤ config.min_age.getD 0)
    (hl : ∃ resp, docker.list_volumes = Except.ok resp) :
    ∃ rs, (reap_volumes docker config).1 = Except.ok rs := by
  obtain ⟨resp, hl⟩ := hl
  cases hv : resp.volumes with
  | none =>
    refine ⟨[], ?_⟩
    have heq : reap_volumes docker config =
        (Except.ok [], [EngineCall.listVolumes]) := by
      unfold reap_volumes
      rw [if_neg hbound]
      simp [hl, hv]
    rw [heq]
  | some vs =>
    by_cases hb : (config.max_age.isSome || config.min_age.isSome) = true
    · have heq : reap_volumes docker config =
          reapVolumesRest docker config
            (vs.filter (volumeWithinAgeRange config docker.parse_rfc3339
              docker.chrono_now))
            [EngineCall.listVolumes, EngineCall.readChronoClock] := by
        unfold reap_volumes
        rw [if_neg hbound]
        simp [hl, hv, hb]
      rw [heq]
      exact reapVolumesRest_ok docker config _ _
    · have heq : reap_volumes docker config =
          reapVolumesRest docker config vs [EngineCall.listVolumes] := by
        unfold reap_volumes
        rw [if_neg hbound]
        simp [hl, hv, hb]
      rw [heq]
      exact reapVolumesRest_ok docker config _ _

/-- C7: a candidate whose age cannot be computed — a container with a missing,
negative, or future creation timestamp; a network or volume with a missing,
unparseable, or future creation timestamp string — is excluded by the age
filter, and bad per-resource metadata never turns an entry point into a
batch-level error: with valid bounds and working enumeration and clock, every
entry point still returns an Ok result list. -/
theorem bad_metadata_skipped (docker : DockerEnv)
    (ccfg : ReapContainersConfig) (ncfg : ReapNetworksConfig)
    (vcfg : ReapVolumesConfig)
    (now : Duration) (cnow : Int) (parse : String → Option Int)
    (c : ContainerSummary) (n : Network) (v : Volume)
    (hcbad : c.created = none ∨ (∃ s, c.created = some s ∧ s < 0) ∨
      (∃ s, c.created = some s ∧ 0 ≤ s ∧ now < s.toNat * 1000000000))
    (hnbad : n.created = none ∨ (∃ ts, n.created = some ts ∧ parse ts = none) ∨
      (∃ ts tv, n.created = some ts ∧ parse ts = some tv ∧ cnow < tv))
    (hvbad : v.created_at = none ∨
      (∃ ts, v.created_at = some ts ∧ parse ts = none) ∨
      (∃ ts tv, v.created_at = some ts ∧ parse ts = some tv ∧ cnow < tv))
    (hcb : ¬ ccfg.max_age.getD durationMax ≤ ccfg.min_age.getD 0)
    (hnb : ¬ ncfg.max_age.getD durationMax ≤ ncfg.min_age.getD 0)
    (hvb : ¬ vcfg.max_age.getD durationMax ≤ vcfg.min_age.getD 0)
    (hlc : ∃ cs, docker.list_containers = Except.ok cs)
    (hck : ∃ nw, docker.system_clock = Except.ok nw)
    (hln : ∃ ns, docker.list_networks = Except.ok ns)
    (hlv : ∃ resp, docker.list_volumes = Except.ok resp) :
    containerWithinAgeRange ccfg now c = false ∧
    networkWithinAgeRange ncfg parse cnow n = false ∧
    volumeWithinAgeRange vcfg parse cnow v = false ∧
    (∃ rs, (reap_containers docker ccfg).1 = Except.ok rs) ∧
    (∃ rs, (reap_networks docker ncfg).1 = Except.ok rs) ∧
    (∃ rs, (reap_volumes docker vcfg).1 = Except.ok rs) := by
  refine ⟨?_, ?_, ?_, reap_containers_ok docker ccfg hcb hlc hck,
    reap_networks_ok docker ncfg hnb hln, reap_volumes_ok docker vcfg hvb hlv⟩
  · rcases hcbad with h | ⟨s, hs, hneg⟩ | ⟨s, hs, hpos, hfut⟩
    · simp [containerWithinAgeRange, h]
    · simp [containerWithinAgeRange, hs, hneg]
    · have hnle : ¬ s.toNat * 1000000000 ≤ now := not_le.mpr hfut
      simp [containerWithinAgeRange, hs, not_lt.mpr hpos, checkedSub, hnle]
  · cases hname : n.name with
    | none => simp [networkWithinAgeRange, hname]
    | some nm =>
      rcases hnbad with h | ⟨ts, hts, hp⟩ | ⟨ts, tv, hts, hp, hfut⟩
      · simp [networkWithinAgeRange, hname, h]
      · simp [networkWithinAgeRange, hname, hts, hp]
      · simp [networkWithinAgeRange, hname, hts, hp, sub_neg.mpr hfut]
  · rcases hvbad with h | ⟨ts, hts, hp⟩ | ⟨ts, tv, hts, hp, hfut⟩
    · simp [volumeWithinAgeRange, h]
    · simp [volumeWithinAgeRange, hts, hp]
    · simp [volumeWithinAgeRange, hts, hp, sub_neg.mpr hfut]

/-- C7 witness: a container created in the future, a network with an
unparseable timestamp and a volume with no timestamp are all excluded, while
the entry points over the sample environment still return Ok. -/
theorem bad_metadata_skipped_witness :
    containerWithinAgeRange
      { dry_run := false, min_age := some 10, max_age := some 1000, filters := [],
        reap_networks := false } 500
      { id := some "c", created := some 7, names := none,
        network_settings := none } = false ∧
    networkWithinAgeRange
      { dry_run := false, min_age := some 10, max_age := some 1000, filters := [] }
      (fun s => if s = "t0" then some 0 else none) 500
      { name := some "n", created := some "garbage" } = false ∧
    volumeWithinAgeRange
      { dry_run := false, min_age := some 10, max_age := some 1000, filters := [] }
      (fun s => if s = "t0" then some 0 else none) 500
      { name := "v", created_at := none } = false := by
  have h := bad_metadata_skipped sampleEnv
    { dry_run := false, min_age := some 10, max_age := some 1000, filters := [],
      reap_networks := false }
    { dry_run := false, min_age := some 10, max_age := some 1000, filters := [] }
    { dry_run := false, min_age := some 10, max_age := some 1000, filters := [] }
    500 500 (fun s => if s = "t0" then some 0 else none)
    { id := some "c", created := some 7, names := none, network_settings := none }
    { name := some "n", created := some "garbage" }
    { name := "v", created_at := none }
    (Or.inr (Or.inr ⟨7, rfl, by decide, by decide⟩))
    (Or.inr (Or.inl ⟨"garbage", rfl, by decide⟩))
    (Or.inl rfl)
    (by decide) (by decide) (by decide)
    ⟨_, rfl⟩ ⟨_, rfl⟩ ⟨_, rfl⟩ ⟨_, rfl⟩
  exact ⟨h.1, h.2.1, h.2.2.1⟩

/-- The attached network names a container contributes when cascading:
the keys of its network settings map, or nothing when absent. -/
def attachedNetworkNames (container : ContainerSummary) : List String :=
  match container.network_settings with
  | some network_settings =>
    match network_settings.networks with
    | some networks => networks
    | none => []
  | none => []

lemma listInsert_mem (s : List String) (x y : String) :
    y ∈ listInsert s x ↔ y ∈ s ∨ y = x := by
  by_cases hx : x ∈ s
  · simp only [listInsert, if_pos hx]
    constructor
    · exact Or.inl
    · rintro (h | rfl)
      · exact h
      · exact hx
  · simp [listInsert, if_neg hx]

lemma foldl_listInsert_mem (l : List String) : ∀ (s : List String) (y : String),
    y ∈ l.foldl listInsert s ↔ y ∈ s ∨ y ∈ l := by
  induction l with
  | nil => simp
  | cons x xs ih =>
    intro s y
    rw [List.foldl_cons, ih, listInsert_mem, List.mem_cons]
    tauto

lemma listInsert_nodup (s : List String) (x : String) (h : s.Nodup) :
    (listInsert s x).Nodup := by
  by_cases hx : x ∈ s
  · simpa [listInsert, hx] using h
  · simp [listInsert, hx, List.nodup_append, h]

lemma foldl_listInsert_nodup (l : List String) : ∀ (s : List String), s.Nodup →
    (l.foldl listInsert s).Nodup := by
  induction l with
  | nil => exact fun s h => h
  | cons x xs ih => exact fun s h => ih _ (listInsert_nodup s x h)

lemma collectEligible_names (config : ReapContainersConfig)
    (hrn : config.reap_networks = true) :
    ∀ (l : List ContainerSummary), (∀ c ∈ l, c.id ≠ none) →
    ∀ (names : List String) (res : List Resource),
      (collectEligible config l names res).1 =
        (l.flatMap attachedNetworkNames).foldl listInsert names := by
  intro l
  induction l with
  | nil =>
    intro hid names res
    simp [collectEligible]
  | cons c rest ih =>
    intro hid names res
    simp only [collectEligible]
    cases hcid : c.id with
    | none => exact absurd hcid (hid c (List.mem_cons_self c rest))
    | some id =>
      simp only [hcid]
      rw [ih (fun x hx => hid x (List.mem_cons_of_mem c hx)) _ _]
      rw [List.flatMap_cons, List.foldl_append]
      congr 1
      rw [hrn]
      cases hset : c.network_settings with
      | none => simp [attachedNetworkNames, hset]
      | some network_settings =>
        cases hnet : network_settings.networks with
        | none => simp [attachedNetworkNames, hset, hnet]
        | some networks => simp [attachedNetworkNames, hset, hnet]

lemma collectEligible_names_off (config : ReapContainersConfig)
    (hrn : config.reap_networks = false) :
    ∀ (l : List ContainerSummary) (names : List String) (res : List Resource),
      (collectEligible config l names res).1 = names := by
  intro l
  induction l with
  | nil => intro names res; rfl
  | cons c rest ih =>
    intro names res
    simp only [collectEligible]
    cases hcid : c.id with
    | none =>
      simp only [hcid]
      exact ih _ _
    | some id =>
      simp only [hcid, hrn]
      exact ih _ _

/-- C8: with network cascading on, the eligible Network resources added by
reap_containers are exactly one per distinct attached network name across the
eligible containers — duplicates removed across containers, id and name both
equal to the network name; with cascading off, no Network resource is added. -/
theorem network_cascade_dedup (config : ReapContainersConfig)
    (cs : List ContainerSummary) (hid : ∀ c ∈ cs, c.id ≠ none) :
    (config.reap_networks = true →
      (buildEligibleResources config cs).filter
          (fun r => r.resource_type = ResourceType.network) =
        ((cs.flatMap attachedNetworkNames).foldl listInsert []).map
          networkNameResource) ∧
    (∀ nm, nm ∈ (cs.flatMap attachedNetworkNames).foldl listInsert [] ↔
      nm ∈ cs.flatMap attachedNetworkNames) ∧
    ((cs.flatMap attachedNetworkNames).foldl listInsert []).Nodup ∧
    (config.reap_networks = false →
      (buildEligibleResources config cs).filter
          (fun r => r.resource_type = ResourceType.network) = []) := by
  refine ⟨fun hrn => ?_, fun nm => ?_, ?_, fun hrn => ?_⟩
  · rw [filter_buildEligible_network,
      collectEligible_names config hrn cs hid [] []]
  · simpa using foldl_listInsert_mem (cs.flatMap attachedNetworkNames) [] nm
  · exact foldl_listInsert_nodup _ [] List.nodup_nil
  · rw [filter_buildEligible_network,
      collectEligible_names_off config hrn cs [] []]
    rfl

/-- C8 witness: over the two sample containers the cascade collects exactly
the two distinct network names netA and netB, each as one Network resource. -/
theorem network_cascade_dedup_witness :
    (buildEligibleResources
      { dry_run := false, min_age := none, max_age := none, filters := [],
        reap_networks := true }
      [{ id := some "c1", created := some 0, names := some ["/app"],
         network_settings := some { networks := some ["netA", "netB"] } },
       { id := some "c2", created := some 50, names := none,
         network_settings := some { networks := some ["netA"] } }]).filter
        (fun r => r.resource_type = ResourceType.network) =
      (([{ id := some "c1", created := some 0, names := some ["/app"],
           network_settings := some { networks := some ["netA", "netB"] } },
         { id := some "c2", created := some 50, names := none,
           network_settings := some { networks := some ["netA"] } }].flatMap
          attachedNetworkNames).foldl listInsert []).map networkNameResource :=
  (network_cascade_dedup
    { dry_run := false, min_age := none, max_age := none, filters := [],
      reap_networks := true }
    [{ id := some "c1", created := some 0, names := some ["/app"],
       network_settings := some { networks := some ["netA", "netB"] } },
     { id := some "c2", created := some 50, names := none,
       network_settings := some { networks := some ["netA"] } }]
    (by decide)).1 rfl

lemma classifyRemoveResult_ne_eligible (res : Except BollardError Unit) :
    classifyRemoveResult res ≠ RemovalStatus.eligible := by
  rcases classifyRemoveResult_shape res with h | h | ⟨e, h⟩ <;> simp [h]

lemma reap_containers_dry_eligible (docker : DockerEnv)
    (config : ReapContainersConfig) (hd : config.dry_run = true) :
    ∀ rs, (reap_containers docker config).1 = Except.ok rs →
      ∀ r ∈ rs, r.status = RemovalStatus.eligible := by
  rcases reap_containers_shape docker config with h | ⟨e, h⟩ | h | ⟨l, t, ht, h⟩
  · rw [h]; intro rs hok; cases hok
  · rw [h]; intro rs hok; cases hok
  · rw [h]; intro rs hok; cases hok
  · rw [h, reapContainersRest_dry_run docker config l t hd]
    intro rs hok r hr
    cases hok
    exact (mem_buildEligibleResources config l r hr).1

lemma reap_containers_no_dry_terminal (docker : DockerEnv)
    (config : ReapContainersConfig) (hd : config.dry_run = false) :
    ∀ rs, (reap_containers docker config).1 = Except.ok rs →
      ∀ r ∈ rs, r.status ≠ RemovalStatus.eligible := by
  rcases reap_containers_shape docker config with h | ⟨e, h⟩ | h | ⟨l, t, ht, h⟩
  · rw [h]; intro rs hok; cases hok
  · rw [h]; intro rs hok; cases hok
  · rw [h]; intro rs hok; cases hok
  · rw [h, reapContainersRest_no_dry docker config l t hd]
    intro rs hok r hr
    cases hok
    obtain ⟨a, -, rfl⟩ := List.mem_map.mp hr
    rw [remove_fst_status docker a]
    exact classifyRemoveResult_ne_eligible _

lemma reap_networks_dry_eligible (docker : DockerEnv)
    (config : ReapNetworksConfig) (hd : config.dry_run = true) :
    ∀ rs, (reap_networks docker config).1 = Except.ok rs →
      ∀ r ∈ rs, r.status = RemovalStatus.eligible := by
  rcases reap_networks_shape docker config with h | ⟨e, h⟩ | ⟨l, t, ht, h⟩
  · rw [h]; intro rs hok; cases hok
  · rw [h]; intro rs hok; cases hok
  · rw [h, reapNetworksRest_dry_run docker config l t hd]
    intro rs hok r hr
    cases hok
    exact (mem_networkEligibleResources l r hr).1

lemma reap_networks_no_dry_terminal (docker : DockerEnv)
    (config : ReapNetworksConfig) (hd : config.dry_run = false) :
    ∀ rs, (reap_networks docker config).1 = Except.ok rs →
      ∀ r ∈ rs, r.status ≠ RemovalStatus.eligible := by
  rcases reap_networks_shape docker config with h | ⟨e, h⟩ | ⟨l, t, ht, h⟩
  · rw [h]; intro rs hok; cases hok
  · rw [h]; intro rs hok; cases hok
  · rw [h, reapNetworksRest_no_dry docker config l t hd]
    intro rs hok r hr
    cases hok
    obtain ⟨a, -, rfl⟩ := List.mem_map.mp hr
    rw [remove_fst_status docker a]
    exact classifyRemoveResult_ne_eligible _

lemma reap_volumes_dry_eligible (docker : DockerEnv)
    (config : ReapVolumesConfig) (hd : config.dry_run = true) :
    ∀ rs, (reap_volumes docker config).1 = Except.ok rs →
      ∀ r ∈ rs, r.status = RemovalStatus.eligible := by
  rcases reap_volumes_shape docker config with h | ⟨e, h⟩ | h | ⟨l, t, ht, h⟩
  · rw [h]; intro rs hok; cases hok
  · rw [h]; intro rs hok; cases hok
  · rw [h]
    intro rs hok r hr
    cases hok
    exact absurd hr (List.not_mem_nil r)
  · rw [h, reapVolumesRest_dry_run docker config l t hd]
    intro rs hok r hr
    cases hok
    exact (mem_volumeEligibleResources l r hr).1

lemma reap_volumes_no_dry_terminal (docker : DockerEnv)
    (config : ReapVolumesConfig) (hd : config.dry_run = false) :
    ∀ rs, (reap_volumes docker config).1 = Except.ok rs →
      ∀ r ∈ rs, r.status ≠ RemovalStatus.eligible := by
  rcases reap_volumes_shape docker config with h | ⟨e, h⟩ | h | ⟨l, t, ht, h⟩
  · rw [h]; intro rs hok; cases hok
  · rw [h]; intro rs hok; cases hok
  · rw [h]
    intro rs hok r hr
    cases hok
    exact absurd hr (List.not_mem_nil r)
  · rw [h, reapVolumesRest_no_dry docker config l t hd]
    intro rs hok r hr
    cases hok
    obtain ⟨a, -, rfl⟩ := List.mem_map.mp hr
    rw [remove_fst_status docker a]
    exact classifyRemoveResult_ne_eligible _

/-- C9: enumeration creates every Resource with status Eligible; an attempted
removal moves the status to one of the terminal statuses Success, InProgress
or Error, never back to Eligible; hence a non-dry-run call returns only
non-Eligible resources and a dry-run call returns only Eligible ones, for all
three entry points. -/
theorem status_lifecycle (docker : DockerEnv) :
    (∀ (config : ReapContainersConfig) (cs : List ContainerSummary),
      ∀ r ∈ buildEligibleResources config cs,
        r.status = RemovalStatus.eligible) ∧
    (∀ ns : List Network, ∀ r ∈ networkEligibleResources ns,
      r.status = RemovalStatus.eligible) ∧
    (∀ vs : List Volume, ∀ r ∈ volumeEligibleResources vs,
      r.status = RemovalStatus.eligible) ∧
    (∀ r : Resource,
      (Resource.remove docker r).1.status = RemovalStatus.success ∨
      (Resource.remove docker r).1.status = RemovalStatus.inProgress ∨
      ∃ e, (Resource.remove docker r).1.status = RemovalStatus.error e) ∧
    (∀ (config : ReapContainersConfig) (rs : List Resource),
      config.dry_run = false → (reap_containers docker config).1 = Except.ok rs →
      ∀ r ∈ rs, r.status ≠ RemovalStatus.eligible) ∧
    (∀ (config : ReapContainersConfig) (rs : List Resource),
      config.dry_run = true → (reap_containers docker config).1 = Except.ok rs →
      ∀ r ∈ rs, r.status = RemovalStatus.eligible) ∧
    (∀ (config : ReapNetworksConfig) (rs : List Resource),
      config.dry_run = false → (reap_networks docker config).1 = Except.ok rs →
      ∀ r ∈ rs, r.status ≠ RemovalStatus.eligible) ∧
    (∀ (config : ReapNetworksConfig) (rs : List Resource),
      config.dry_run = true → (reap_networks docker config).1 = Except.ok rs →
      ∀ r ∈ rs, r.status = RemovalStatus.eligible) ∧
    (∀ (config : ReapVolumesConfig) (rs : List Resource),
      config.dry_run = false → (reap_volumes docker config).1 = Except.ok rs →
      ∀ r ∈ rs, r.status ≠ RemovalStatus.eligible) ∧
    (∀ (config : ReapVolumesConfig) (rs : List Resource),
      config.dry_run = true → (reap_volumes docker config).1 = Except.ok rs →
      ∀ r ∈ rs, r.status = RemovalStatus.eligible) := by
  refine ⟨?_, ?_, ?_, ?_, ?_, ?_, ?_, ?_, ?_, ?_⟩
  · exact fun config cs r hr => (mem_buildEligibleResources config cs r hr).1
  · exact fun ns r hr => (mem_networkEligibleResources ns r hr).1
  · exact fun vs r hr => (mem_volumeEligibleResources vs r hr).1
  · intro r
    rw [remove_fst_status docker r]
    exact classifyRemoveResult_shape _
  · exact fun config rs hd hok =>
      reap_containers_no_dry_terminal docker config hd rs hok
  · exact fun config rs hd hok =>
      reap_containers_dry_eligible docker config hd rs hok
  · exact fun config rs hd hok =>
      reap_networks_no_dry_terminal docker config hd rs hok
  · exact fun config rs hd hok =>
      reap_networks_dry_eligible docker config hd rs hok
  · exact fun config rs hd hok =>
      reap_volumes_no_dry_terminal docker config hd rs hok
  · exact fun config rs hd hok =>
      reap_volumes_dry_eligible docker config hd rs hok

/-- C9 witness: a non-dry-run cascade reap over the sample environment leaves
the first removed container with the terminal status Success. -/
theorem status_lifecycle_witness :
    ({ resource_type := ResourceType.container, id := "c1", name := "/app",
       status := RemovalStatus.success } : Resource).status ≠
      RemovalStatus.eligible := by
  have h := status_lifecycle sampleEnv
  exact h.2.2.2.2.1
    { dry_run := false, min_age := none, max_age := none, filters := [],
      reap_networks := true }
    [{ resource_type := ResourceType.container, id := "c1", name := "/app",
       status := RemovalStatus.success },
     { resource_type := ResourceType.container, id := "c2", name := "c2",
       status := RemovalStatus.success },
     { resource_type := ResourceType.network, id := "netA", name := "netA",
       status := RemovalStatus.success },
     { resource_type := ResourceType.network, id := "netB", name := "netB",
       status := RemovalStatus.success }]
    rfl rfl _ (List.mem_cons_self _ _)

/-- C10 counterexample: with min_age 2 ns and max_age 1 ns configured and the
engine's volume-list response carrying no volume list at all, reap_volumes
returns the InvalidAgeBound error, not an empty Ok list — the age-bound check
runs before the response is ever examined, so the claim does not hold
regardless of the configured age bounds. -/
theorem volumes_absent_counterexample :
    (reap_volumes
      { sampleEnv with
        list_volumes := (Except.ok { volumes := none, warnings := none }) }
      { dry_run := false, min_age := some 2, max_age := some 1,
        filters := [] }).1 = Except.error ReapError.invalidAgeBound := rfl

/-- C10 (amended): provided the age-bound precondition passes (effective
minimum age below effective maximum age), a reap_volumes call whose
volume-list response contains no volume list succeeds with an empty resource
list, for any remaining bounds and dry_run setting, and issues only the
listing call. -/
theorem volumes_absent_returns_empty (docker : DockerEnv)
    (config : ReapVolumesConfig) (resp : VolumeListResponse)
    (hbound : ¬ config.max_age.getD durationMax ≤ config.min_age.getD 0)
    (hl : docker.list_volumes = Except.ok resp)
    (hv : resp.volumes = none) :
    reap_volumes docker config = (Except.ok [], [EngineCall.listVolumes]) := by
  unfold reap_volumes
  rw [if_neg hbound]
  simp [hl, hv]

/-- C10 witness: a dry-run call with bounds 1 ns and 5 ns over an engine
reporting no volume list returns the empty Ok result. -/
theorem volumes_absent_returns_empty_witness :
    reap_volumes
      { sampleEnv with
        list_volumes := (Except.ok { volumes := none, warnings := none }) }
      { dry_run := true, min_age := some 1, max_age := some 5, filters := [] } =
      (Except.ok [], [EngineCall.listVolumes]) :=
  volumes_absent_returns_empty
    { sampleEnv with
      list_volumes := (Except.ok { volumes := none, warnings := none }) }
    { dry_run := true, min_age := some 1, max_age := some 5, filters := [] }
    { volumes := none, warnings := none }
    (by decide) rfl rfl

end DockerReaper
